import Mathlib

/-!
Verification development for the AI-Video-Analysis ingestion pipeline.

The definitions below are a shallow embedding of the TypeScript sources:

* `src/app/api/summarize/route.ts` (two route handlers: the YouTube
  transcript route and the S3 file route),
* `src/lib/aws-s3.ts` (the `GoogleFilesProcessor` class),
* the direct video upload route (chunk combination prompt),
* the Result Store collaborator described by `supabase-schema.sql`.

Strings are modelled as lists of Unicode code points (`List Char`); the
JavaScript `String.prototype.length` counts UTF-16 code units, which agrees
with the code-point count on all inputs used here.
-/

/- ## Text chunker, from `splitTranscriptIntoChunks` in src/app/api/summarize/route.ts lines 74-97 -/

/-- Embedding of the JavaScript expression `transcript.split(' ')` (single-space
separator, empty fragments preserved; the empty string yields one empty word). -/
def splitWords : List Char → List (List Char)
  | [] => [[]]
  | c :: rest =>
    if c = ' ' then [] :: splitWords rest
    else
      match splitWords rest with
      | [] => [[c]]
      | w :: ws => (c :: w) :: ws

/-- Embedding of `arr.join(' ')` on a list of words. -/
def joinWords : List (List Char) → List Char
  | [] => []
  | [w] => w
  | w :: ws => w ++ ' ' :: joinWords ws

/-- Embedding of `arr.slice(-n)` for a nonnegative count `n`.  JavaScript
`slice(-0)` is `slice(0)`, the whole array; `slice(-n)` with `n` at least the
length is also the whole array. -/
def jsSliceNeg (l : List α) (n : Nat) : List α :=
  if n = 0 then l else l.drop (l.length - n)

/-- The overlap words seeded from the tail of a flushed chunk:
`currentChunk.slice(-Math.floor(overlap / 10))`. -/
def seedOf (overlap : Nat) (prev : List (List Char)) : List (List Char) :=
  jsSliceNeg prev (overlap / 10)

/-- Loop of `splitTranscriptIntoChunks`: walk the word list, flushing the
current chunk when adding the next word would exceed `chunkSize`, seeding the
next chunk with `slice(-Math.floor(overlap / 10))` of the flushed chunk, and
emitting the final partial chunk.  State: remaining words, `currentChunk`,
`currentLength`. -/
def chunkWords (chunkSize overlap : Nat) :
    List (List Char) → List (List Char) → Nat → List (List (List Char))
  | [], currentChunk, _ =>
    if currentChunk = [] then [] else [currentChunk]
  | w :: ws, currentChunk, currentLength =>
    if chunkSize < currentLength + w.length ∧ currentChunk ≠ [] then
      let overlapWords := seedOf overlap currentChunk
      currentChunk ::
        chunkWords chunkSize overlap ws (overlapWords ++ [w])
          ((joinWords overlapWords).length + w.length + 1)
    else
      chunkWords chunkSize overlap ws (currentChunk ++ [w]) (currentLength + w.length + 1)

/-- Embedding of `splitTranscriptIntoChunks(transcript, chunkSize, overlap)`
(defaults in the source: `chunkSize = 7000`, `overlap = 1000`). -/
def splitTranscriptIntoChunks (transcript : String) (chunkSize overlap : Nat) : List String :=
  (chunkWords chunkSize overlap (splitWords transcript.toList) [] 0).map
    (fun c => String.mk (joinWords c))

/-- Concatenate a chunk list, dropping `k` seeded words from the first chunk
and, from every later chunk, the words seeded from the tail of its
predecessor. -/
def dropConcat (overlap k : Nat) : List (List (List Char)) → List (List Char)
  | [] => []
  | c :: rest => c.drop k ++ dropConcat overlap (seedOf overlap c).length rest

/-- Concatenation of the chunks with the seeded overlap words stripped from
every chunk except the first. -/
def reconstructWords (overlap : Nat) (chunks : List (List (List Char))) : List (List Char) :=
  dropConcat overlap 0 chunks

/-- The chunk list with `k` seeded words removed from the first chunk and the
seeded overlap removed from the head of every later chunk (chunk boundaries
kept, used to state the per-chunk size bound). -/
def strippedChunks (overlap k : Nat) : List (List (List Char)) → List (List (List Char))
  | [] => []
  | c :: rest => c.drop k :: strippedChunks overlap (seedOf overlap c).length rest

theorem dropConcat_chunkWords (cs ov : Nat) :
    ∀ (ws cur : List (List Char)) (len k : Nat), k ≤ cur.length →
      dropConcat ov k (chunkWords cs ov ws cur len) = cur.drop k ++ ws := by
  intro ws
  induction ws with
  | nil =>
    intro cur len k hk
    by_cases hcur : cur = []
    · subst hcur
      simp [chunkWords, dropConcat]
    · simp [chunkWords, hcur, dropConcat]
  | cons w ws ih =>
    intro cur len k hk
    by_cases hcond : cs < len + w.length ∧ cur ≠ []
    · rw [chunkWords, if_pos hcond]
      rw [dropConcat]
      have hseed : (seedOf ov cur).length ≤ (seedOf ov cur ++ [w]).length := by
        simp
      rw [ih (seedOf ov cur ++ [w]) _ (seedOf ov cur).length hseed]
      rw [List.drop_left]
      simp
    · rw [chunkWords, if_neg hcond]
      have hk2 : k ≤ (cur ++ [w]).length := by
        simp; omega
      rw [ih (cur ++ [w]) _ k hk2]
      rw [List.drop_append_of_le_length hk]
      simp

theorem splitWords_ne_nil (l : List Char) : splitWords l ≠ [] := by
  cases l with
  | nil => simp [splitWords]
  | cons c rest =>
    rw [splitWords]
    by_cases hc : c = ' '
    · simp [hc]
    · simp only [if_neg hc]
      cases splitWords rest <;> simp

theorem chunkWords_ne_nil (cs ov : Nat) :
    ∀ (ws cur : List (List Char)) (len : Nat), cur ≠ [] ∨ ws ≠ [] →
      chunkWords cs ov ws cur len ≠ [] := by
  intro ws
  induction ws with
  | nil =>
    intro cur len h
    have hcur : cur ≠ [] := by tauto
    simp [chunkWords, hcur]
  | cons w ws ih =>
    intro cur len _
    by_cases hcond : cs < len + w.length ∧ cur ≠ []
    · rw [chunkWords, if_pos hcond]; simp
    · rw [chunkWords, if_neg hcond]
      exact ih (cur ++ [w]) _ (Or.inl (by simp))

/-- C2: for every non-empty input text, concatenating the chunks produced by
`splitTranscriptIntoChunks` — stripping from every chunk except the first the
`Math.floor(overlap / 10)` overlap words seeded from the tail of the previous
chunk — reconstructs exactly the original word sequence of the input, and at
least one chunk is produced. -/
theorem splitTranscriptIntoChunks_reconstructs (transcript : String) (cs ov : Nat)
    (h : transcript ≠ "") :
    reconstructWords ov (chunkWords cs ov (splitWords transcript.toList) [] 0)
        = splitWords transcript.toList
    ∧ 1 ≤ (splitTranscriptIntoChunks transcript cs ov).length := by
  constructor
  · rw [reconstructWords, dropConcat_chunkWords cs ov _ [] 0 0 (by simp)]
    simp
  · rw [splitTranscriptIntoChunks, List.length_map]
    have hne := chunkWords_ne_nil cs ov (splitWords transcript.toList) [] 0
      (Or.inr (splitWords_ne_nil _))
    cases hchunks : chunkWords cs ov (splitWords transcript.toList) [] 0 with
    | nil => exact absurd hchunks hne
    | cons a l => simp

/-- Witness for C2 at a concrete transcript. -/
theorem splitTranscriptIntoChunks_reconstructs_witness :
    ("aaaaaa bbbbbb cccccc" : String) ≠ "" ∧
    reconstructWords 10 (chunkWords 10 10 (splitWords ("aaaaaa bbbbbb cccccc" : String).toList) [] 0)
        = splitWords ("aaaaaa bbbbbb cccccc" : String).toList ∧
    1 ≤ (splitTranscriptIntoChunks "aaaaaa bbbbbb cccccc" 10 10).length := by
  refine ⟨by decide, ?_⟩
  exact splitTranscriptIntoChunks_reconstructs "aaaaaa bbbbbb cccccc" 10 10 (by decide)

theorem joinWords_cons_ne (w : List Char) (ws : List (List Char)) (h : ws ≠ []) :
    joinWords (w :: ws) = w ++ ' ' :: joinWords ws := by
  cases ws with
  | nil => exact absurd rfl h
  | cons a l => rfl

theorem joinWords_append_ne (a b : List (List Char)) (ha : a ≠ []) (hb : b ≠ []) :
    joinWords (a ++ b) = joinWords a ++ ' ' :: joinWords b := by
  induction a with
  | nil => exact absurd rfl ha
  | cons x a iha =>
    cases a with
    | nil =>
      simp only [List.singleton_append]
      rw [joinWords_cons_ne x b hb]
      rfl
    | cons y a2 =>
      have h1 : joinWords ((x :: y :: a2) ++ b) = x ++ ' ' :: joinWords ((y :: a2) ++ b) := by
        rw [List.cons_append, joinWords_cons_ne _ _ (by simp)]
      rw [h1, iha (by simp), joinWords_cons_ne x (y :: a2) (by simp)]
      simp

theorem joinWords_append_length (a b : List (List Char)) (ha : a ≠ []) (hb : b ≠ []) :
    (joinWords (a ++ b)).length = (joinWords a).length + 1 + (joinWords b).length := by
  rw [joinWords_append_ne a b ha hb]
  simp [List.length_append]
  omega

theorem jsSliceNeg_ne_nil (l : List α) (n : Nat) (h : l ≠ []) : jsSliceNeg l n ≠ [] := by
  unfold jsSliceNeg
  split
  · exact h
  · next hn =>
    intro hnil
    have hlen : l.length ≤ l.length - n := List.drop_eq_nil_iff.mp hnil
    have hpos : 0 < l.length := List.length_pos.mpr h
    omega

/-- Invariant of the chunking loop for the chunk under construction: `k` is
the number of seeded overlap words at the head of `currentChunk`,
`currentLength` counts the joined length (plus one trailing separator when the
chunk was not seeded), and the chunk minus its seed fits in `chunkSize` unless
it is a single over-length word. -/
structure ChunkInv (cs k : Nat) (cur : List (List Char)) (len : Nat) : Prop where
  k_le : k ≤ cur.length
  len_nil : cur = [] → len = 0
  len_eq : cur ≠ [] → len = (joinWords cur).length + (if k = 0 then 1 else 0)
  bound : (joinWords (cur.drop k)).length ≤ cs ∨ ∃ w, cur.drop k = [w] ∧ cs < w.length

theorem strippedChunks_bound (cs ov : Nat) :
    ∀ (ws cur : List (List Char)) (len k : Nat), ChunkInv cs k cur len →
      ∀ d ∈ strippedChunks ov k (chunkWords cs ov ws cur len),
        (joinWords d).length ≤ cs ∨ ∃ w, d = [w] ∧ cs < w.length := by
  intro ws
  induction ws with
  | nil =>
    intro cur len k inv d hd
    by_cases hcur : cur = []
    · subst hcur
      simp [chunkWords, strippedChunks] at hd
    · rw [chunkWords, if_neg hcur] at hd
      rw [strippedChunks] at hd
      simp only [strippedChunks, List.mem_singleton] at hd
      subst hd
      exact inv.bound
  | cons w ws ih =>
    intro cur len k inv d hd
    by_cases hcond : cs < len + w.length ∧ cur ≠ []
    · rw [chunkWords, if_pos hcond] at hd
      rw [strippedChunks] at hd
      rcases List.mem_cons.mp hd with hfirst | hrest
      · subst hfirst
        exact inv.bound
      · -- the remaining chunks come from the loop on the freshly seeded chunk
        have hseedne : seedOf ov cur ≠ [] := jsSliceNeg_ne_nil cur (ov / 10) hcond.2
        refine ih (seedOf ov cur ++ [w]) _ (seedOf ov cur).length ?_ d hrest
        constructor
        · simp
        · intro habs; simp at habs
        · intro _
          have hkne : (seedOf ov cur).length ≠ 0 := by
            simpa [List.length_eq_zero] using hseedne
          rw [if_neg hkne, joinWords_append_length _ [w] hseedne (by simp)]
          simp [joinWords]
          omega
        · rw [List.drop_left]
          rcases le_or_lt w.length cs with hle | hlt
          · left; simpa [joinWords] using hle
          · right; exact ⟨w, rfl, hlt⟩
    · rw [chunkWords, if_neg hcond] at hd
      refine ih (cur ++ [w]) _ k ?_ d hd
      by_cases hcur : cur = []
      · subst hcur
        have hk0 : k = 0 := Nat.le_zero.mp inv.k_le
        subst hk0
        have hlen0 : len = 0 := inv.len_nil rfl
        subst hlen0
        constructor
        · simp
        · intro habs; simp at habs
        · intro _; simp [joinWords]
        · rcases le_or_lt w.length cs with hle | hlt
          · left; simpa [joinWords] using hle
          · right; exact ⟨w, rfl, hlt⟩
      · have hA : len + w.length ≤ cs := by
          rcases not_and_or.mp hcond with hna | hnb
          · omega
          · exact absurd hcur (by simpa using hnb)
        have hlen := inv.len_eq hcur
        have hkle := inv.k_le
        constructor
        · simp; omega
        · intro habs; simp at habs
        · intro _
          rw [joinWords_append_length cur [w] hcur (by simp), hlen]
          simp only [joinWords]
          omega
        · -- size bound for the extended chunk
          rw [List.drop_append_of_le_length inv.k_le]
          by_cases hdnil : cur.drop k = []
          · rw [hdnil, List.nil_append]
            left
            simp only [joinWords]
            omega
          · left
            rw [joinWords_append_length _ [w] hdnil (by simp)]
            have hsplit : joinWords ((cur.take k) ++ (cur.drop k)) = joinWords cur := by
              rw [List.take_append_drop]
            have hdroplen : (joinWords (cur.drop k)).length + 1 ≤ len := by
              by_cases hk0 : k = 0
              · subst hk0
                simp only [List.drop_zero] at *
                rw [hlen]
                simp
              · have htakene : cur.take k ≠ [] := by
                  intro habs
                  have : (cur.take k).length = 0 := by rw [habs]; rfl
                  rw [List.length_take] at this
                  have hpos : 0 < cur.length := List.length_pos.mpr hcur
                  omega
                have := joinWords_append_length (cur.take k) (cur.drop k) htakene hdnil
                rw [hsplit] at this
                rw [hlen, if_neg hk0]
                omega
            simp only [joinWords]
            omega

/-- C3 counterexample: with `chunkSize = 10` and `overlap = 10`, the input
`"aaaaaa bbbbbb cccccc"` (every word of length 6, none longer than
`chunkSize`) produces the chunk `"aaaaaa bbbbbb"` of length 13 > 10, because
the seeded overlap plus the next word overflow the budget.  This refutes the
claim that every chunk is at most `chunkSize` long except single over-length
words. -/
theorem splitTranscriptIntoChunks_overlength_cex :
    (splitTranscriptIntoChunks "aaaaaa bbbbbb cccccc" 10 10)[1]? = some "aaaaaa bbbbbb"
    ∧ 10 < ("aaaaaa bbbbbb" : String).length
    ∧ ((splitWords ("aaaaaa bbbbbb cccccc" : String).toList).all
        (fun w => w.length ≤ 10)) = true := by
  decide

/-- C3 (amended): for every non-empty input, chunking always terminates and
the final partial chunk is emitted (at least one chunk is produced), and every
chunk — after excluding the overlap words seeded from the tail of the previous
chunk — has length at most `chunkSize`, unless what remains is a single word
longer than `chunkSize`.  The full chunk itself can exceed `chunkSize` when
the seeded overlap plus the following word overflow the budget (see the
counterexample). -/
theorem splitTranscriptIntoChunks_size (transcript : String) (cs ov : Nat)
    (h : transcript ≠ "") :
    1 ≤ (splitTranscriptIntoChunks transcript cs ov).length ∧
    ∀ d ∈ strippedChunks ov 0 (chunkWords cs ov (splitWords transcript.toList) [] 0),
      (joinWords d).length ≤ cs ∨ ∃ w, d = [w] ∧ cs < w.length := by
  constructor
  · rw [splitTranscriptIntoChunks, List.length_map]
    have hne := chunkWords_ne_nil cs ov (splitWords transcript.toList) [] 0
      (Or.inr (splitWords_ne_nil _))
    cases hchunks : chunkWords cs ov (splitWords transcript.toList) [] 0 with
    | nil => exact absurd hchunks hne
    | cons a l => simp
  · intro d hd
    refine strippedChunks_bound cs ov _ [] 0 0 ?_ d hd
    constructor
    · simp
    · intro _; rfl
    · intro habs; exact absurd rfl habs
    · left; simp [joinWords]

/-- Witness for the amended C3 at a concrete transcript. -/
theorem splitTranscriptIntoChunks_size_witness :
    ("aaaaaa bbbbbb cccccc" : String) ≠ "" ∧
    1 ≤ (splitTranscriptIntoChunks "aaaaaa bbbbbb cccccc" 10 10).length := by
  refine ⟨by decide, ?_⟩
  exact (splitTranscriptIntoChunks_size "aaaaaa bbbbbb cccccc" 10 10 (by decide)).1

/- ## Readiness poller, from `GoogleFilesProcessor.waitForFileProcessing` in src/lib/aws-s3.ts lines 366-414 -/

/-- Error outcomes of the poller: the remote state machine reported `FAILED`,
or `maxWaitTime` elapsed without an `ACTIVE` result. -/
inductive WaitError where
  | processingFailed
  | timeout (maxWaitTime : Nat)
deriving DecidableEq

/-- Error messages thrown by the poller in the source. -/
def waitErrMessage : WaitError → String
  | .processingFailed => "File processing failed on Google servers"
  | .timeout mw => "File processing timeout after " ++ toString (mw / 1000) ++ " seconds"

/-- Polling loop of `waitForFileProcessing`.  The remote status responses are
injected as `polls : Nat → String` (the `state` field of the k-th successful
status fetch); time is modelled by counting one `pollInterval` (a constant
5000 ms in the source) per completed iteration, so the k-th iteration runs at
elapsed time `k * 5000`.  `ACTIVE` returns success, `FAILED` throws
immediately, any other state continues; when the elapsed time reaches
`maxWaitTime` the loop exits and throws the timeout error.  The structural
`fuel` argument bounds the iteration count; it is initialised to
`maxWaitTime / 5000 + 1`, which the loop can never exhaust before the elapsed
time reaches `maxWaitTime`, so the fuel-exhaustion branch coincides with the
timeout exit. -/
def waitPoll (polls : Nat → String) (maxWaitTime : Nat) : Nat → Nat → Except WaitError Bool
  | _, 0 => .error (.timeout maxWaitTime)
  | k, fuel + 1 =>
    if k * 5000 < maxWaitTime then
      if polls k = "ACTIVE" then .ok true
      else if polls k = "FAILED" then .error .processingFailed
      else waitPoll polls maxWaitTime (k + 1) fuel
    else .error (.timeout maxWaitTime)

/-- Embedding of `waitForFileProcessing(fileName, maxWaitTime)` (default
`maxWaitTime = 300000`); the file name only routes the status request, so the
model keeps the poll outcomes and the wait budget. -/
def waitForFileProcessing (polls : Nat → String) (maxWaitTime : Nat) : Except WaitError Bool :=
  waitPoll polls maxWaitTime 0 (maxWaitTime / 5000 + 1)

theorem waitPoll_reaches (polls : Nat → String) (mw : Nat) :
    ∀ (i k fuel : Nat), (∀ j, j < i → polls (k + j) ≠ "ACTIVE" ∧ polls (k + j) ≠ "FAILED") →
      (k + i) * 5000 < mw → i ≤ fuel →
      waitPoll polls mw k (fuel + 1) = waitPoll polls mw (k + i) (fuel - i + 1) := by
  intro i
  induction i with
  | zero => intro k fuel _ _ _; rfl
  | succ i ih =>
    intro k fuel hquiet hlt hfuel
    have hk : k * 5000 < mw := by omega
    have hq0 := hquiet 0 (by omega)
    simp only [Nat.add_zero] at hq0
    rw [waitPoll, if_pos hk, if_neg hq0.1, if_neg hq0.2]
    obtain ⟨fuel2, rfl⟩ : ∃ fuel2, fuel = fuel2 + 1 := ⟨fuel - 1, by omega⟩
    have := ih (k + 1) fuel2 (fun j hj => by
      have := hquiet (j + 1) (by omega)
      simpa [Nat.add_assoc, Nat.add_comm 1 j] using this) (by omega) (by omega)
    rw [this]
    congr 1
    · omega
    · omega

theorem waitPoll_congr (polls polls2 : Nat → String) (mw : Nat) :
    ∀ (fuel k : Nat),
      (∀ j, k ≤ j → j * 5000 < mw → polls2 j = polls j) →
      waitPoll polls mw k fuel = waitPoll polls2 mw k fuel := by
  intro fuel
  induction fuel with
  | zero => intro k _; rfl
  | succ fuel ih =>
    intro k hagree
    by_cases hk : k * 5000 < mw
    · rw [waitPoll, if_pos hk]
      conv_rhs => rw [waitPoll, if_pos hk]
      rw [hagree k (le_refl k) hk]
      by_cases ha : polls k = "ACTIVE"
      · rw [if_pos ha, if_pos ha]
      · rw [if_neg ha, if_neg ha]
        by_cases hf : polls k = "FAILED"
        · rw [if_pos hf, if_pos hf]
        · rw [if_neg hf, if_neg hf]
          exact ih (k + 1) (fun j hj hjm => hagree j (by omega) hjm)
    · rw [waitPoll, if_neg hk]
      conv_rhs => rw [waitPoll, if_neg hk]

theorem waitPoll_timeout (polls : Nat → String) (mw : Nat) :
    ∀ (fuel k : Nat),
      (∀ j, j * 5000 < mw → polls j ≠ "ACTIVE" ∧ polls j ≠ "FAILED") →
      waitPoll polls mw k fuel = .error (.timeout mw) := by
  intro fuel
  induction fuel with
  | zero => intro k _; rfl
  | succ fuel ih =>
    intro k hquiet
    by_cases hk : k * 5000 < mw
    · have hq := hquiet k hk
      rw [waitPoll, if_pos hk, if_neg hq.1, if_neg hq.2]
      exact ih (k + 1) hquiet
    · rw [waitPoll, if_neg hk]

/-- C8: behaviour of the readiness poller on every sequence of observed remote
states.  If the polls before index `i` are neither `ACTIVE` nor `FAILED` and
poll `i` happens within the wait budget, then: an `ACTIVE` poll makes
`waitForFileProcessing` return success; a `FAILED` poll makes it throw the
processing-failed error immediately, and the outcome is unchanged under any
modification of the polls after index `i` (no further poll is consulted).
If the budget elapses without an `ACTIVE` or `FAILED` poll, it throws the
timeout error. -/
theorem waitForFileProcessing_state_machine (polls : Nat → String) (mw i : Nat)
    (hquiet : ∀ j, j < i → polls j ≠ "ACTIVE" ∧ polls j ≠ "FAILED")
    (hbudget : i * 5000 < mw) :
    (polls i = "ACTIVE" → waitForFileProcessing polls mw = .ok true)
    ∧ (polls i = "FAILED" →
        waitForFileProcessing polls mw = .error .processingFailed
        ∧ ∀ polls2 : Nat → String, (∀ j, j ≤ i → polls2 j = polls j) →
            waitForFileProcessing polls2 mw = .error .processingFailed)
    ∧ ((∀ j, j * 5000 < mw → polls j ≠ "ACTIVE" ∧ polls j ≠ "FAILED") →
        waitForFileProcessing polls mw = .error (.timeout mw)) := by
  have hifuel : i ≤ mw / 5000 := by omega
  have hreach : ∀ polls3 : Nat → String,
      (∀ j, j < i → polls3 j ≠ "ACTIVE" ∧ polls3 j ≠ "FAILED") →
      waitForFileProcessing polls3 mw
        = waitPoll polls3 mw i (mw / 5000 - i + 1) := by
    intro polls3 hq3
    have := waitPoll_reaches polls3 mw i 0 (mw / 5000)
      (fun j hj => by simpa using hq3 j hj) (by simpa using hbudget) hifuel
    simpa [waitForFileProcessing] using this
  refine ⟨?_, ?_, ?_⟩
  · intro hactive
    rw [hreach polls hquiet, waitPoll, if_pos hbudget, if_pos hactive]
  · intro hfailed
    have hna : polls i ≠ "ACTIVE" := by rw [hfailed]; decide
    have hfail0 : waitForFileProcessing polls mw = .error .processingFailed := by
      rw [hreach polls hquiet, waitPoll, if_pos hbudget, if_neg hna, if_pos hfailed]
    refine ⟨hfail0, ?_⟩
    intro polls2 hagree
    have hq2 : ∀ j, j < i → polls2 j ≠ "ACTIVE" ∧ polls2 j ≠ "FAILED" := by
      intro j hj
      rw [hagree j (by omega)]
      exact hquiet j hj
    have hp2 : polls2 i = "FAILED" := by rw [hagree i (le_refl i), hfailed]
    have hna2 : polls2 i ≠ "ACTIVE" := by rw [hp2]; decide
    rw [hreach polls2 hq2, waitPoll, if_pos hbudget, if_neg hna2, if_pos hp2]
  · intro hquietall
    rw [waitForFileProcessing]
    exact waitPoll_timeout polls mw (mw / 5000 + 1) 0 hquietall

/-- Witness for C8: an immediately `ACTIVE` poll sequence returns success, an
immediately `FAILED` sequence throws the processing-failed error however the
later polls are filled in, and an all-`PROCESSING` sequence times out. -/
theorem waitForFileProcessing_state_machine_witness :
    waitForFileProcessing (fun _ => "ACTIVE") 300000 = .ok true
    ∧ waitForFileProcessing (fun _ => "FAILED") 300000 = .error .processingFailed
    ∧ waitForFileProcessing (fun _ => "PROCESSING") 300000 = .error (.timeout 300000) := by
  have hquiet : ∀ j, j < 0 → (fun _ : Nat => "ACTIVE") j ≠ "ACTIVE" ∧
      (fun _ : Nat => "ACTIVE") j ≠ "FAILED" := fun j hj => absurd hj (by omega)
  have hquietF : ∀ j, j < 0 → (fun _ : Nat => "FAILED") j ≠ "ACTIVE" ∧
      (fun _ : Nat => "FAILED") j ≠ "FAILED" := fun j hj => absurd hj (by omega)
  have hquietP : ∀ j, j < 0 → (fun _ : Nat => "PROCESSING") j ≠ "ACTIVE" ∧
      (fun _ : Nat => "PROCESSING") j ≠ "FAILED" := fun j hj => absurd hj (by omega)
  refine ⟨?_, ?_, ?_⟩
  · exact (waitForFileProcessing_state_machine (fun _ => "ACTIVE") 300000 0 hquiet
      (by omega)).1 rfl
  · exact ((waitForFileProcessing_state_machine (fun _ => "FAILED") 300000 0 hquietF
      (by omega)).2.1 rfl).1
  · exact (waitForFileProcessing_state_machine (fun _ => "PROCESSING") 300000 0 hquietP
      (by omega)).2.2 (fun j _ => ⟨by decide, by decide⟩)

/- ## Output cleaner, from `cleanModelOutput` in src/app/api/summarize/route.ts lines 37-61 -/

/-- The apostrophe character (written via its code point). -/
def apos : Char := Char.ofNat 39

/-- A string holding one apostrophe. -/
def aposS : String := String.singleton apos

/-- JavaScript whitespace, the character set matched by the regex class `\s`
and removed by `String.prototype.trim`. -/
def isSpaceJS (c : Char) : Bool :=
  c = ' ' || c = Char.ofNat 9 || c = Char.ofNat 10 || c = Char.ofNat 11 ||
  c = Char.ofNat 12 || c = Char.ofNat 13 || c = Char.ofNat 0xa0 ||
  c = Char.ofNat 0x1680 ||
  (Char.ofNat 0x2000 ≤ c && c ≤ Char.ofNat 0x200a) ||
  c = Char.ofNat 0x2028 || c = Char.ofNat 0x2029 || c = Char.ofNat 0x202f ||
  c = Char.ofNat 0x205f || c = Char.ofNat 0x3000 || c = Char.ofNat 0xfeff

/-- Embedding of `String.prototype.trim`. -/
def jsTrim (l : List Char) : List Char :=
  ((l.dropWhile isSpaceJS).reverse.dropWhile isSpaceJS).reverse

/-- Case folding used for the `i` regex flag: ASCII letters plus the German
umlauts appearing in the cleaning rules. -/
def jsLowerChar (c : Char) : Char :=
  if c = 'Ä' then 'ä' else if c = 'Ö' then 'ö' else if c = 'Ü' then 'ü' else c.toLower

/-- Single-character classes occurring in the cleaning rules.  `dot` is the
regex `.` (anything but a line terminator), `anyChar` is `[^]`; characters are
modelled as code points. -/
inductive CharClass where
  | anyChar
  | dot
  | space
  | digit
  | spaceOrDigit
  | oneOf (cs : List Char)
  | noneOf (cs : List Char)
deriving DecidableEq

def charMatches : CharClass → Char → Bool
  | .anyChar, _ => true
  | .dot, c => !(c = Char.ofNat 10 || c = Char.ofNat 13 ||
      c = Char.ofNat 0x2028 || c = Char.ofNat 0x2029)
  | .space, c => isSpaceJS c
  | .digit, c => '0' ≤ c && c ≤ '9'
  | .spaceOrDigit, c => isSpaceJS c || ('0' ≤ c && c ≤ '9')
  | .oneOf cs, c => cs.contains c
  | .noneOf cs, c => !(cs.contains c)

/-- Abstract syntax of the regular expressions used by the cleaner.  Every
quantifier in the source patterns ranges over a single-character class, which
the constructors reflect: `starL` is a lazy `*?`, `starG` a greedy `*`,
`plusG` a greedy `+`, `opt` a greedy `?`, and `nla` a negative lookahead
`(?!...)` over a class. -/
inductive RE where
  | eps
  | lit (s : String)
  | cls (c : CharClass)
  | seq (a b : RE)
  | alt (a b : RE)
  | opt (r : RE)
  | starL (c : CharClass)
  | starG (c : CharClass)
  | plusG (c : CharClass)
  | nla (c : CharClass)

/-- Match a literal (under optional case folding), returning the remaining
input. -/
def matchLit (ci : Bool) : List Char → List Char → Option (List Char)
  | [], input => some input
  | _ :: _, [] => none
  | p :: ps, c :: rest =>
    if (if ci then jsLowerChar p = jsLowerChar c else p = c) then matchLit ci ps rest
    else none

/-- Lazy star over a character class in continuation-passing style: try the
continuation first, then consume one more matching character. -/
def starLazyM (cl : CharClass) (k : List Char → Option (List Char)) :
    List Char → Option (List Char)
  | [] => k []
  | c :: rest =>
    match k (c :: rest) with
    | some r => some r
    | none => if charMatches cl c then starLazyM cl k rest else none

/-- Greedy star over a character class in continuation-passing style: consume
as many matching characters as possible, backtracking into the
continuation. -/
def starGreedyM (cl : CharClass) (k : List Char → Option (List Char)) :
    List Char → Option (List Char)
  | [] => k []
  | c :: rest =>
    if charMatches cl c then
      match starGreedyM cl k rest with
      | some r => some r
      | none => k (c :: rest)
    else k (c :: rest)

/-- Backtracking matcher with JavaScript regex semantics: ordered alternation,
greedy `?`, and the continuation `k` receives the input remaining after the
part matched so far.  `matchRE ci re input some` is `Option.some` of the
suffix following the leftmost match of `re` anchored at the start of
`input`. -/
def matchRE (ci : Bool) : RE → List Char → (List Char → Option (List Char)) → Option (List Char)
  | .eps, input, k => k input
  | .lit s, input, k =>
    match matchLit ci s.toList input with
    | some rest => k rest
    | none => none
  | .cls cl, input, k =>
    match input with
    | [] => none
    | c :: rest => if charMatches cl c then k rest else none
  | .seq a b, input, k => matchRE ci a input (fun rest => matchRE ci b rest k)
  | .alt a b, input, k =>
    match matchRE ci a input k with
    | some r => some r
    | none => matchRE ci b input k
  | .opt r, input, k =>
    match matchRE ci r input k with
    | some r2 => some r2
    | none => k input
  | .starL cl, input, k => starLazyM cl k input
  | .starG cl, input, k => starGreedyM cl k input
  | .plusG cl, input, k =>
    match input with
    | [] => none
    | c :: rest => if charMatches cl c then starGreedyM cl k rest else none
  | .nla cl, input, k =>
    match input with
    | [] => k input
    | c :: _ => if charMatches cl c then none else k input

/-- Sequence a list of regexes. -/
def seqList (rs : List RE) : RE := rs.foldr RE.seq RE.eps

/-- Ordered alternation of a list of regexes (tried left to right, as in
JavaScript). -/
def altList : List RE → RE
  | [] => RE.eps
  | r :: rest => rest.foldl RE.alt r

/-- Embedding of `s.replace(re, '')` for a pattern anchored with `^` and no
global flag: remove the matched prefix if the pattern matches, otherwise
return the input unchanged. -/
def replaceOnce (ci : Bool) (re : RE) (l : List Char) : List Char :=
  match matchRE ci re l some with
  | some rest => rest
  | none => l

/-- Whether the last character consumed by a match is a newline (the position
after the match is then a `^` position under the `m` flag). -/
def endsWithNewline (l : List Char) : Bool :=
  match l.getLast? with
  | some c => c = Char.ofNat 10
  | none => false

/-- Embedding of `s.replace(re, '')` for a `gm`-flagged pattern anchored with
`^`: scan the string left to right, and at every line-start position remove a
match of the pattern; scanning resumes after the removed region.  The
structural `fuel` argument is initialised to the string length and never runs
out before the scan ends, since every step consumes at least one character.
The fall-through branch for a hypothetical empty match keeps the character and
advances, which is the JavaScript behaviour for zero-length matches (the
patterns used here never match the empty string). -/
def gmStepFuel (re : RE) : Nat → List Char → Bool → List Char
  | 0, s, _ => s
  | _ + 1, [], _ => []
  | fuel + 1, c :: rest, atStart =>
    if atStart then
      match matchRE false re (c :: rest) some with
      | some rest2 =>
        if rest2.length < (c :: rest).length then
          gmStepFuel re fuel rest2
            (endsWithNewline ((c :: rest).take ((c :: rest).length - rest2.length)))
        else c :: gmStepFuel re fuel rest (c = Char.ofNat 10)
      | none => c :: gmStepFuel re fuel rest (c = Char.ofNat 10)
    else c :: gmStepFuel re fuel rest (c = Char.ofNat 10)

/-- Replacement of all multiline-anchored matches, starting at a line
start. -/
def gmStep (re : RE) (s : List Char) (atStart : Bool) : List Char :=
  gmStepFuel re s.length s atStart

/-- Alternation of rule 1: the English preamble openers of the source
pattern (Okay, Here with optional apostrophe-s and optional " is", Let me,
I will, and so on through Alright), tried in source order. -/
def rePrefixes1 : RE := altList [
  RE.lit "Okay",
  seqList [RE.lit "Here", RE.opt (RE.lit aposS), RE.opt (RE.lit "s"), RE.opt (RE.lit " is")],
  RE.lit "Let me", RE.lit "I will", RE.lit ("I" ++ aposS ++ "ll"), RE.lit "I can",
  RE.lit "I would", RE.lit "I am going to", RE.lit "Allow me to", RE.lit "Sure",
  RE.lit "Of course", RE.lit "Certainly", RE.lit "Alright"]

/-- Rule 1: English preamble up to the first comma, then whitespace. -/
def rule1 : RE := seqList [rePrefixes1, RE.starL .anyChar, RE.lit ",", RE.starG .space]

/-- Alternation of rule 2: the English preamble openers of the second source
pattern (Here with optional apostrophe-s and optional " is", I with optional
apostrophe and one or two l, Let me, and so on through Certainly). -/
def rePrefixes2 : RE := altList [
  seqList [RE.lit "Here", RE.opt (RE.lit aposS), RE.opt (RE.lit "s"), RE.opt (RE.lit " is")],
  seqList [RE.lit "I", RE.opt (RE.lit aposS), RE.lit "l", RE.opt (RE.lit "l")],
  RE.lit "Let me", RE.lit "I will", RE.lit "I can", RE.lit "I would",
  RE.lit "I am going to", RE.lit "Allow me to", RE.lit "Sure",
  RE.lit "Of course", RE.lit "Certainly"]

/-- Rule 2: English preamble mentioning summary, translate, breakdown or
analysis, up to a colon. -/
def rule2 : RE := seqList [rePrefixes2, RE.starL .anyChar,
  altList [RE.lit "summary", RE.lit "translate", RE.lit "breakdown", RE.lit "analysis"],
  RE.starL .dot, RE.lit ":", RE.starG .space]

/-- Rule 3: `^(Based on|According to).*?,\s*`. -/
def rule3 : RE := seqList [altList [RE.lit "Based on", RE.lit "According to"],
  RE.starL .dot, RE.lit ",", RE.starG .space]

/-- Rule 4: `^I understand.*?[.!]\s*`. -/
def rule4 : RE := seqList [RE.lit "I understand", RE.starL .dot,
  RE.cls (.oneOf ['.', '!']), RE.starG .space]

/-- Rule 5: Now, First or Let-apostrophe-s at the start, an optional comma,
then whitespace. -/
def rule5 : RE := seqList [altList [RE.lit "Now", RE.lit "First", RE.lit ("Let" ++ aposS ++ "s")],
  RE.opt (RE.lit ","), RE.starG .space]

/-- Rule 6: `^(Here are|The following is|This is|Below is).*?:\s*`. -/
def rule6 : RE := seqList [altList [RE.lit "Here are", RE.lit "The following is",
  RE.lit "This is", RE.lit "Below is"], RE.starL .dot, RE.lit ":", RE.starG .space]

/-- Rule 7: the five providing-or-breaking preamble openers of the source
(each written with an apostrophe), then lazily up to a colon. -/
def rule7 : RE := seqList [altList [RE.lit ("I" ++ aposS ++ "ll provide"),
  RE.lit "Let me break", RE.lit ("I" ++ aposS ++ "ll break"),
  RE.lit ("I" ++ aposS ++ "ll help"), RE.lit ("I" ++ aposS ++ "ve structured")],
  RE.starL .dot, RE.lit ":", RE.starG .space]

/-- Rule 8: `^(As requested|Following your|In response to).*?:\s*`. -/
def rule8 : RE := seqList [altList [RE.lit "As requested", RE.lit "Following your",
  RE.lit "In response to"], RE.starL .dot, RE.lit ":", RE.starG .space]

/-- Rule 9: German preamble up to the first comma. -/
def rule9 : RE := seqList [altList [
  RE.lit "Okay", seqList [RE.lit "Hier", RE.opt (RE.lit " ist")], RE.lit "Lass mich",
  RE.lit "Ich werde", RE.lit "Ich kann", RE.lit "Ich würde", RE.lit "Ich möchte",
  RE.lit "Erlauben Sie mir", RE.lit "Sicher", RE.lit "Natürlich", RE.lit "Gewiss",
  RE.lit "In Ordnung"], RE.starL .anyChar, RE.lit ",", RE.starG .space]

/-- Rule 10: German preamble mentioning Zusammenfassung, Übersetzung or
Analyse, up to a colon. -/
def rule10 : RE := seqList [altList [
  seqList [RE.lit "Hier", RE.opt (RE.lit " ist")], RE.lit "Ich werde", RE.lit "Lass mich",
  RE.lit "Ich kann", RE.lit "Ich würde", RE.lit "Ich möchte"], RE.starL .anyChar,
  altList [RE.lit "Zusammenfassung", RE.lit "Übersetzung", RE.lit "Analyse"],
  RE.starL .dot, RE.lit ":", RE.starG .space]

/-- Rule 11: `^(Basierend auf|Laut|Gemäß).*?,\s*`. -/
def rule11 : RE := seqList [altList [RE.lit "Basierend auf", RE.lit "Laut", RE.lit "Gemäß"],
  RE.starL .dot, RE.lit ",", RE.starG .space]

/-- Rule 12: `^Ich verstehe.*?[.!]\s*`. -/
def rule12 : RE := seqList [RE.lit "Ich verstehe", RE.starL .dot,
  RE.cls (.oneOf ['.', '!']), RE.starG .space]

/-- Rule 13: `^(Jetzt|Zunächst|Lass uns),?\s*`. -/
def rule13 : RE := seqList [altList [RE.lit "Jetzt", RE.lit "Zunächst", RE.lit "Lass uns"],
  RE.opt (RE.lit ","), RE.starG .space]

/-- Rule 14: `^(Hier sind|Folgendes|Dies ist|Im Folgenden).*?:\s*`. -/
def rule14 : RE := seqList [altList [RE.lit "Hier sind", RE.lit "Folgendes",
  RE.lit "Dies ist", RE.lit "Im Folgenden"], RE.starL .dot, RE.lit ":", RE.starG .space]

/-- Rule 15: `^(Ich werde|Lass mich|Ich helfe|Ich habe strukturiert).*?:\s*`. -/
def rule15 : RE := seqList [altList [RE.lit "Ich werde", RE.lit "Lass mich",
  RE.lit "Ich helfe", RE.lit "Ich habe strukturiert"], RE.starL .dot, RE.lit ":",
  RE.starG .space]

/-- Rule 16: `^(Wie gewünscht|Entsprechend Ihrer|Als Antwort auf).*?:\s*`. -/
def rule16 : RE := seqList [altList [RE.lit "Wie gewünscht", RE.lit "Entsprechend Ihrer",
  RE.lit "Als Antwort auf"], RE.starL .dot, RE.lit ":", RE.starG .space]

/-- The characters excluded by the class of rule 17 (the two emoji are the
code points U+1F3AF and U+1F399 with the variation selector U+FE0F). -/
def rule17Excluded : List Char :=
  [':', Char.ofNat 10, Char.ofNat 0x1F3AF, Char.ofNat 0x1F399, Char.ofNat 0xFE0F,
   '#', '*', '-', '•']

/-- Rule 17 (`gm`): `^[^:\n🎯🎙️#*\-•]+:\s*` — strip a `label:` prefix from
each line while keeping markdown markers and the marker emoji. -/
def rule17 : RE := seqList [RE.plusG (.noneOf rule17Excluded), RE.lit ":", RE.starG .space]

/-- The characters of the lookahead class of rule 18. -/
def rule18Excluded : List Char :=
  ['#', '*', '-', '•', Char.ofNat 0x1F3AF, Char.ofNat 0xFE0F]

/-- Rule 18 (`gm`): `^(?![#*\-•🎯️])[\s\d]+\.\s*` — strip numbered-list
prefixes while keeping markdown lists. -/
def rule18 : RE := seqList [RE.nla (.oneOf rule18Excluded), RE.plusG .spaceOrDigit,
  RE.lit ".", RE.starG .space]

/-- The sixteen case-insensitive anchored rules, in source order. -/
def cleanRules : List RE :=
  [rule1, rule2, rule3, rule4, rule5, rule6, rule7, rule8,
   rule9, rule10, rule11, rule12, rule13, rule14, rule15, rule16]

/-- Embedding of `cleanModelOutput`: the sixteen anchored case-insensitive
replacements in order, then the two global multiline replacements, then
`trim()`. -/
def cleanModelOutput (text : String) : String :=
  let l1 := cleanRules.foldl (fun acc r => replaceOnce true r acc) text.toList
  let l2 := gmStep rule17 l1 true
  let l3 := gmStep rule18 l2 true
  String.mk (jsTrim l3)

/-- C4 counterexample: the cleaner is not idempotent.  On the input
`"Now, Now, hello"` one pass strips only the first `"Now, "` preamble (rule 5
is anchored and replaces a single match), and a second pass strips the next
one, so cleaning the cleaned output changes it again. -/
theorem cleanModelOutput_not_idempotent :
    cleanModelOutput "Now, Now, hello" = "Now, hello"
    ∧ cleanModelOutput (cleanModelOutput "Now, Now, hello") = "hello"
    ∧ cleanModelOutput (cleanModelOutput "Now, Now, hello")
        ≠ cleanModelOutput "Now, Now, hello" := by
  refine ⟨by decide, by decide, by decide⟩

theorem replaceRules_fixed :
    ∀ (rs : List RE) (l : List Char), (∀ r ∈ rs, matchRE true r l some = none) →
      rs.foldl (fun acc r => replaceOnce true r acc) l = l := by
  intro rs
  induction rs with
  | nil => intro l _; rfl
  | cons r rs ih =>
    intro l h
    have hr : replaceOnce true r l = l := by
      rw [replaceOnce, h r (List.mem_cons_self r rs)]
    rw [List.foldl_cons, hr]
    exact ih l (fun r2 hr2 => h r2 (List.mem_cons_of_mem r hr2))

theorem gmStepFuel_fixed (re : RE) :
    ∀ (fuel : Nat) (l : List Char), (∀ n, matchRE false re (l.drop n) some = none) →
      ∀ b, gmStepFuel re fuel l b = l := by
  intro fuel
  induction fuel with
  | zero => intro l _ b; rfl
  | succ fuel ih =>
    intro l h b
    cases l with
    | nil => rfl
    | cons c rest =>
      have h0 : matchRE false re (c :: rest) some = none := by
        have := h 0
        simpa using this
      have hshift : ∀ n, matchRE false re (rest.drop n) some = none := by
        intro n
        have := h (n + 1)
        simpa [List.drop_succ_cons] using this
      cases b with
      | true =>
        simp only [gmStepFuel, if_true, h0]
        rw [ih rest hshift]
      | false =>
        simp only [gmStepFuel, Bool.false_eq_true, if_false]
        rw [ih rest hshift]

theorem gmStep_fixed (re : RE) (l : List Char)
    (h : ∀ n, matchRE false re (l.drop n) some = none) (b : Bool) :
    gmStep re l b = l :=
  gmStepFuel_fixed re l.length l h b

/-- C4 (amended): the cleaner is not idempotent in general — a second pass can
strip a further conversational preamble (see the counterexample) — but
cleaning already-clean text is a no-op: if none of the sixteen anchored rules
matches the text, neither multiline rule matches at any position, and the text
carries no leading or trailing whitespace, then `cleanModelOutput` returns it
unchanged. -/
theorem cleanModelOutput_clean_noop (s : String)
    (hrules : ∀ r ∈ cleanRules, matchRE true r s.toList some = none)
    (h17 : ∀ n, matchRE false rule17 (s.toList.drop n) some = none)
    (h18 : ∀ n, matchRE false rule18 (s.toList.drop n) some = none)
    (htrim : jsTrim s.toList = s.toList) :
    cleanModelOutput s = s := by
  rw [cleanModelOutput]
  rw [replaceRules_fixed cleanRules s.toList hrules]
  rw [gmStep_fixed rule17 s.toList h17 true]
  rw [gmStep_fixed rule18 s.toList h18 true]
  rw [htrim]
  rfl

/-- Witness for the amended C4 at the concrete clean text `"hello"`. -/
theorem cleanModelOutput_clean_noop_witness :
    cleanModelOutput "hello" = "hello" := by
  refine cleanModelOutput_clean_noop "hello" (by decide) ?_ ?_ (by decide)
  · intro n
    match n with
    | 0 => decide
    | 1 => decide
    | 2 => decide
    | 3 => decide
    | 4 => decide
    | m + 5 =>
      have hdrop : ("hello" : String).toList.drop (m + 5) = [] := by
        apply List.drop_eq_nil_of_le
        simp
      rw [hdrop]
      decide
  · intro n
    match n with
    | 0 => decide
    | 1 => decide
    | 2 => decide
    | 3 => decide
    | 4 => decide
    | m + 5 =>
      have hdrop : ("hello" : String).toList.drop (m + 5) = [] := by
        apply List.drop_eq_nil_of_le
        simp
      rw [hdrop]
      decide

/- ## Response parser, from `GoogleFilesProcessor.parseGeminiResponse` in src/lib/aws-s3.ts lines 487-498 -/

/-- Case-folded prefix test, embedding a case-insensitive literal match. -/
def startsWithFold : List Char → List Char → Bool
  | [], _ => true
  | _ :: _, [] => false
  | p :: ps, c :: cs => jsLowerChar p == jsLowerChar c && startsWithFold ps cs

/-- Find the first case-insensitive occurrence of `pat` and return the suffix
following it (the semantics of anchoring the heading literal anywhere via
`String.prototype.match`). -/
def findCI (pat : List Char) : List Char → Option (List Char)
  | [] => if startsWithFold pat [] then some [] else none
  | c :: rest =>
    if startsWithFold pat (c :: rest) then some ((c :: rest).drop pat.length)
    else findCI pat rest

/-- The lazy group `([\s\S]*?)(?=## SUMMARY|$)`: take characters until the
first position where the summary heading starts (case-insensitively) or the
input ends. -/
def takeUntilCI (stop : List Char) : List Char → List Char
  | [] => []
  | c :: rest => if startsWithFold stop (c :: rest) then [] else c :: takeUntilCI stop rest

/-- The transcript heading literal of the generation prompt. -/
def transcriptHeading : List Char := "## TRANSCRIPT".toList

/-- The summary heading literal of the generation prompt. -/
def summaryHeading : List Char := "## SUMMARY".toList

/-- Value of `transcriptMatch ? transcriptMatch[1].trim() : text`: the regex
`/## TRANSCRIPT\s*([\s\S]*?)(?=## SUMMARY|$)/i` anchors the heading anywhere,
greedily skips whitespace, and lazily captures up to the summary heading or
the end. -/
def transcriptField (text : String) : String :=
  match findCI transcriptHeading text.toList with
  | some after => String.mk (jsTrim (takeUntilCI summaryHeading (after.dropWhile isSpaceJS)))
  | none => text

/-- Value of `summaryMatch ? summaryMatch[1].trim() : text`: the regex
`/## SUMMARY\s*([\s\S]*?)$/i` anchors the heading anywhere, greedily skips
whitespace, and captures everything to the end. -/
def summaryField (text : String) : String :=
  match findCI summaryHeading text.toList with
  | some after => String.mk (jsTrim (after.dropWhile isSpaceJS))
  | none => text

/-- Embedding of `parseGeminiResponse`: the extracted fields with the source
fallbacks of the source — the placeholder "Transcript extraction failed" for
the transcript and the raw text for the summary (a JavaScript string is falsy
exactly when empty). -/
def parseGeminiResponse (text : String) : String × String :=
  (if transcriptField text = "" then "Transcript extraction failed" else transcriptField text,
   if summaryField text = "" then text else summaryField text)

/-- C5 counterexample: on the empty response text, both headings are absent,
yet the returned transcript is the fixed placeholder rather than the raw
response text — refuting the claim that transcript and summary both equal the
raw response whenever both headings are missing.  (The summary does equal the
raw response.) -/
theorem parseGeminiResponse_empty_cex :
    findCI transcriptHeading ("" : String).toList = none
    ∧ findCI summaryHeading ("" : String).toList = none
    ∧ parseGeminiResponse "" = ("Transcript extraction failed", "")
    ∧ (parseGeminiResponse "").1 ≠ "" := by
  refine ⟨by decide, by decide, by decide, by decide⟩

/-- C5 (amended): the parser is a total function — it never throws on
malformed structure — and whenever both the transcript heading and the summary
heading are absent from the response text, the returned summary equals the
full raw response text, and so does the returned transcript unless the raw
response is the empty string, in which case the transcript is the placeholder
`"Transcript extraction failed"`. -/
theorem parseGeminiResponse_fallback (text : String)
    (h1 : findCI transcriptHeading text.toList = none)
    (h2 : findCI summaryHeading text.toList = none) :
    parseGeminiResponse text
      = (if text = "" then "Transcript extraction failed" else text, text) := by
  rw [parseGeminiResponse, transcriptField, summaryField, h1, h2]
  by_cases htext : text = "" <;> simp [htext]

/-- Witness for the amended C5 at a concrete heading-free response. -/
theorem parseGeminiResponse_fallback_witness :
    parseGeminiResponse "plain response text"
      = ("plain response text", "plain response text") := by
  have := parseGeminiResponse_fallback "plain response text" (by decide) (by decide)
  simpa using this

/-- C10: the transcript returned by the parser is never the empty string —
when the extracted transcript text is empty the parser substitutes the fixed
placeholder `"Transcript extraction failed"`, and otherwise returns the
extracted text — whereas the summary falls back to the raw response text and
therefore can be empty (witnessed by the empty response). -/
theorem parseGeminiResponse_transcript_nonempty (text : String) :
    (parseGeminiResponse text).1 ≠ ""
    ∧ (transcriptField text = "" →
        (parseGeminiResponse text).1 = "Transcript extraction failed")
    ∧ (transcriptField text ≠ "" →
        (parseGeminiResponse text).1 = transcriptField text)
    ∧ (parseGeminiResponse "").2 = "" := by
  refine ⟨?_, ?_, ?_, by decide⟩
  · rw [parseGeminiResponse]
    by_cases ht : transcriptField text = ""
    · rw [if_pos ht]
      simp
    · rw [if_neg ht]
      simpa using ht
  · intro ht
    rw [parseGeminiResponse, if_pos ht]
  · intro ht
    rw [parseGeminiResponse, if_neg ht]

/-- Witness for C10 at the empty response text. -/
theorem parseGeminiResponse_transcript_nonempty_witness :
    (parseGeminiResponse "").1 ≠ ""
    ∧ (parseGeminiResponse "").1 = "Transcript extraction failed" := by
  refine ⟨(parseGeminiResponse_transcript_nonempty "").1, ?_⟩
  exact (parseGeminiResponse_transcript_nonempty "").2.1 (by decide)

/- ## Result Store collaborator, from supabase-schema.sql and the supabase calls in the routes -/

/-- A row of the `summaries` table (the fields the pipeline reads or
writes). -/
structure SummaryRow where
  id : String
  videoId : String
  title : String
  content : String
  language : String
  mode : String
  source : String
deriving DecidableEq

/-- The Result Store collaborator: the stored rows, plus an optional
exogenous failure (connectivity, permissions, ...) that makes every query
fail.  The schema declares `UNIQUE(video_id, language)`, so an insert for an
existing key fails with a uniqueness violation. -/
structure ResultStore where
  rows : List SummaryRow
  failure : Option String
deriving DecidableEq

/-- A single-row select query filtered on video_id and language: on a
failed query the destructured `data` is null, which the routes treat as a
cache miss. -/
def storeLookup (db : ResultStore) (videoId language : String) : Option SummaryRow :=
  match db.failure with
  | some _ => none
  | none => db.rows.find? (fun r => r.videoId == videoId && r.language == language)

/-- An `insert(...).select().single()` call: fails on an exogenous failure or
on a duplicate `(video_id, language)` key, otherwise returns the row. -/
def storeInsert (db : ResultStore) (row : SummaryRow) : Except String SummaryRow :=
  match db.failure with
  | some e => .error e
  | none =>
    if db.rows.any (fun r => r.videoId == row.videoId && r.language == row.language)
    then .error "duplicate key value violates unique constraint"
    else .ok row

/-- An update call on an existing row, selected back as a single row. -/
def storeUpdate (db : ResultStore) (existing : SummaryRow) (content mode source : String) :
    Except String SummaryRow :=
  match db.failure with
  | some e => .error e
  | none => .ok { existing with content := content, mode := mode, source := source }

/- ## Google Files workflow, from `GoogleFilesProcessor` in src/lib/aws-s3.ts -/

/-- The finalized file object returned by the resumable upload
(`GoogleFileUploadResult` in the source): `name` is the durable identifier
used for status and delete calls, `fileUri` the reference used for generation
calls. -/
structure GoogleFileUploadResult where
  fileUri : String
  name : String
  mimeType : String
  sizeBytes : String
  state : String
deriving DecidableEq

/-- The transcript and summary produced by the generation call
(`VideoProcessingResult` in the source). -/
structure VideoProcessingResult where
  transcript : String
  summary : String
deriving DecidableEq

/-- Embedding of `deleteGoogleFile`: issue the DELETE request for the durable
name and swallow every failure — a non-2xx response and a thrown fetch error
are both only logged.  The function returns the log line, never an error. -/
def deleteGoogleFile (outcome : Except String Bool) : String :=
  match outcome with
  | .ok true => "File deleted successfully from Google Files API"
  | .ok false => "Failed to delete file from Google Files API"
  | .error _ => "Error deleting file from Google Files API"

/-- Environment of one `processVideo` run: the outcomes of the external calls
it makes.  `polls` feeds the readiness poller, `deleteHttp` the cleanup
request. -/
structure PVEnv where
  uploadResult : Except String GoogleFileUploadResult
  polls : Nat → String
  genResult : Except String VideoProcessingResult
  deleteHttp : Except String Bool

/-- Primary outcome of a `processVideo` run. -/
inductive PVOutcome where
  | success (r : VideoProcessingResult)
  | failure (msg : String)
deriving DecidableEq

/-- Embedding of `GoogleFilesProcessor.processVideo`: upload, wait for
processing, generate — all inside a `try` whose `finally` deletes the remote
file by its durable name whenever the upload handle was obtained.  Returns
the primary outcome, the list of delete calls issued (by durable name), and
the cleanup log lines. -/
def processVideo (env : PVEnv) : PVOutcome × List String × List String :=
  match env.uploadResult with
  | .error e => (.failure e, [], [])
  | .ok up =>
    let primary : PVOutcome :=
      match waitForFileProcessing env.polls 300000 with
      | .error werr => .failure (waitErrMessage werr)
      | .ok _ =>
        match env.genResult with
        | .error e => .failure e
        | .ok r => .success r
    (primary, [up.name], [deleteGoogleFile env.deleteHttp])

/- ## S3 file route, from the second `POST` in src/app/api/summarize/route.ts lines 560-721 -/

/-- Progress events written by the S3 route (SSE-framed in the source). -/
inductive S3Event where
  | progress (message : String) (pct : Nat)
  | complete (message : String) (pct : Nat)
      (summary transcript summaryId title s3Key : String)
  | error (message : String) (pct : Nat)
deriving DecidableEq

def S3Event.isComplete : S3Event → Bool
  | .complete .. => true
  | _ => false

def S3Event.isError : S3Event → Bool
  | .error .. => true
  | _ => false

/-- Environment of one S3-route request: the request fields and the outcomes
of the external calls. -/
structure S3Env where
  s3Key : String
  fileName : String
  downloadResult : Except String Unit
  uploadResult : Except String GoogleFileUploadResult
  polls : Nat → String
  genResult : Except String VideoProcessingResult
  deleteHttp : Except String Bool
  db : ResultStore

/-- Observable outcome of one S3-route request: whether the request was
rejected up front (missing fields), the progress events written, the number
of generation calls issued, the delete calls issued (by durable name), and
the insert attempts made against the Result Store. -/
structure S3Run where
  badRequest : Bool
  events : List S3Event
  genCalls : Nat
  deletes : List String
  insertAttempts : List SummaryRow
deriving DecidableEq

/-- The row the S3 route inserts (video_id is the S3 key, the title is the
file name, and the language is fixed to English). -/
def s3Row (env : S3Env) (result : VideoProcessingResult) : SummaryRow :=
  { id := "", videoId := env.s3Key, title := env.fileName, content := result.summary,
    language := "en", mode := "", source := "" }

/-- Embedding of the S3-route `POST` handler: validate the fields, then
download, upload, wait for remote readiness, generate, delete the remote
file, and insert into the Result Store; any thrown error is caught and
written as a terminal error event.  Note that the delete step runs only on
the success path — the catch handler performs no cleanup. -/
def s3Run (env : S3Env) : S3Run :=
  if env.s3Key = "" ∨ env.fileName = "" then
    { badRequest := true, events := [], genCalls := 0, deletes := [], insertAttempts := [] }
  else
    let ev1 := S3Event.progress "Downloading video from S3..." 10
    match env.downloadResult with
    | .error e =>
      { badRequest := false, events := [ev1, .error e 0], genCalls := 0,
        deletes := [], insertAttempts := [] }
    | .ok _ =>
      let ev2 := S3Event.progress "Uploading to Google Files API..." 30
      match env.uploadResult with
      | .error e =>
        { badRequest := false, events := [ev1, ev2, .error e 0], genCalls := 0,
          deletes := [], insertAttempts := [] }
      | .ok up =>
        let ev3 := S3Event.progress "Waiting for Google Files processing..." 50
        match waitForFileProcessing env.polls 300000 with
        | .error werr =>
          { badRequest := false, events := [ev1, ev2, ev3, .error (waitErrMessage werr) 0],
            genCalls := 0, deletes := [], insertAttempts := [] }
        | .ok _ =>
          let ev4 := S3Event.progress "Generating transcript and summary with Gemini..." 70
          match env.genResult with
          | .error e =>
            { badRequest := false, events := [ev1, ev2, ev3, ev4, .error e 0],
              genCalls := 1, deletes := [], insertAttempts := [] }
          | .ok result =>
            let ev5 := S3Event.progress "Cleaning up Google Files..." 85
            let _ := deleteGoogleFile env.deleteHttp
            let ev6 := S3Event.progress "Saving to database..." 90
            let row := s3Row env result
            match storeInsert env.db row with
            | .error _ =>
              { badRequest := false,
                events := [ev1, ev2, ev3, ev4, ev5, ev6,
                  .error "Failed to save summary to database" 0],
                genCalls := 1, deletes := [up.name], insertAttempts := [row] }
            | .ok data =>
              { badRequest := false,
                events := [ev1, ev2, ev3, ev4, ev5, ev6,
                  .complete "Video processing completed successfully!" 100
                    result.summary result.transcript data.id env.fileName env.s3Key],
                genCalls := 1, deletes := [up.name], insertAttempts := [row] }

/- ## YouTube transcript route, from the first `POST` in src/app/api/summarize/route.ts lines 218-503 -/

/-- Progress events written by the transcript route (NDJSON-framed in the
source).  A `complete` event carries the summary, the source, the status and
an optional warning. -/
inductive YTEvent where
  | progress (currentChunk totalChunks : Nat) (stage message : String)
  | complete (summary source status : String) (warning : Option String)
  | error (message details : String)
deriving DecidableEq

def YTEvent.isError : YTEvent → Bool
  | .error .. => true
  | _ => false

def YTEvent.isComplete : YTEvent → Bool
  | .complete .. => true
  | _ => false

/-- Environment of one transcript-route request.  `videoId` stands for
`extractVideoId(url)` and `mkSummaryPrompt` for `createSummaryPrompt`, which
are both taken from `lib/youtube`, a module outside the pipeline sources; the
claims under verification do not depend on their definitions, so they are
injected.  `rawGen` is the raw model response for a prompt (or a thrown
error); the route always pipes it through `cleanModelOutput`. -/
structure YTEnv where
  videoId : String
  language : String
  db : ResultStore
  transcriptResult : Except String (String × String × String)
  rawGen : String → Except String String
  mkSummaryPrompt : String → String → String

/-- Embedding of `geminiModel.generateContent`: the raw response cleaned by
`cleanModelOutput`. -/
def ytGenerate (env : YTEnv) (prompt : String) : Except String String :=
  (env.rawGen prompt).map cleanModelOutput

/-- Observable outcome of one transcript-route request. -/
structure YTRun where
  events : List YTEvent
  genCalls : List String
  insertAttempts : List SummaryRow
  updateAttempts : List SummaryRow
deriving DecidableEq

/-- The per-section prompt of the chunked path (source lines 381-386). -/
def ytChunkPrompt (chunk language : String) : String :=
  "Summarize this section of a YouTube video transcript. Focus on the main points, key information, and important details. Keep the original meaning and context.\n\nContent to summarize:\n"
  ++ chunk ++ "\n\nProvide a clear, comprehensive summary in " ++ language ++ "."

/-- Embedding of the source-or-youtube fallback of the complete events. -/
def orYoutube (s : String) : String := if s = "" then "youtube" else s

/-- The updated row written by the long-path update branch. -/
def updatedRow (existing : SummaryRow) (summary source : String) : SummaryRow :=
  { existing with content := summary, mode := "video", source := source }

/-- The row the transcript route inserts. -/
def ytRow (env : YTEnv) (title summary source : String) : SummaryRow :=
  { id := "", videoId := env.videoId, title := title, content := summary,
    language := env.language, mode := "video", source := source }

/-- The per-chunk loop of the long-transcript path: for each chunk, emit a
progress event, call the generator on the section prompt, and collect the
intermediate summaries; a generation error aborts the loop (the surrounding
`try` turns it into a terminal error event). -/
def ytChunkLoop (env : YTEnv) (total : Nat) :
    List String → Nat → List YTEvent × List String × Except String (List String)
  | [], _ => ([], [], .ok [])
  | c :: cs, i =>
    let ev := YTEvent.progress (i + 1) total "processing"
      ("Processing section " ++ toString (i + 1) ++ " of " ++ toString total ++ "...")
    let p := ytChunkPrompt c env.language
    match ytGenerate env p with
    | .error e => ([ev], [p], .error e)
    | .ok s =>
      let (evs, calls, res) := ytChunkLoop env total cs (i + 1)
      (ev :: evs, p :: calls, res.map (s :: ·))

/-- Embedding of the transcript-route `POST` handler: cache check with early
return, transcript fetch, then either the direct path (transcript shorter
than 8000) or the chunked path, followed by persistence where a failure
degrades to a `complete` event with a warning; every thrown error is caught
and written as a terminal error event. -/
def ytRun (env : YTEnv) : YTRun :=
  match storeLookup env.db env.videoId env.language with
  | some row =>
    { events := [.complete row.content "cache" "completed" none],
      genCalls := [], insertAttempts := [], updateAttempts := [] }
  | none =>
    let ev1 := YTEvent.progress 0 1 "analyzing" "Fetching video transcript..."
    match env.transcriptResult with
    | .error e =>
      { events := [ev1, .error e e], genCalls := [], insertAttempts := [], updateAttempts := [] }
    | .ok (transcript, source, title) =>
      if transcript.length < 8000 then
        let ev2 := YTEvent.progress 1 1 "processing" "Processing video content..."
        let p := env.mkSummaryPrompt transcript env.language
        match ytGenerate env p with
        | .error e =>
          { events := [ev1, ev2, .error e e], genCalls := [p],
            insertAttempts := [], updateAttempts := [] }
        | .ok summary =>
          if summary.length < 50 then
            { events := [ev1, ev2,
                .error "AI generated an empty or very short summary"
                  "AI generated an empty or very short summary"],
              genCalls := [p], insertAttempts := [], updateAttempts := [] }
          else
            let ev3 := YTEvent.progress 1 1 "saving" "Saving summary to history..."
            let row := ytRow env title summary source
            match storeInsert env.db row with
            | .ok _ =>
              { events := [ev1, ev2, ev3, .complete summary (orYoutube source) "completed" none],
                genCalls := [p], insertAttempts := [row], updateAttempts := [] }
            | .error _ =>
              { events := [ev1, ev2, ev3,
                  .complete summary (orYoutube source) "completed"
                    (some "Failed to save to history")],
                genCalls := [p], insertAttempts := [row], updateAttempts := [] }
      else
        let chunks := splitTranscriptIntoChunks transcript 7000 1000
        let total := chunks.length
        let (loopEvents, loopCalls, loopRes) := ytChunkLoop env total chunks 0
        match loopRes with
        | .error e =>
          { events := ev1 :: loopEvents ++ [.error e e], genCalls := loopCalls,
            insertAttempts := [], updateAttempts := [] }
        | .ok intermediates =>
          let ev4 := YTEvent.progress total total "finalizing" "Creating final summary..."
          let fp := env.mkSummaryPrompt (String.intercalate "\n\n" intermediates) env.language
          match ytGenerate env fp with
          | .error e =>
            { events := ev1 :: loopEvents ++ [ev4, .error e e],
              genCalls := loopCalls ++ [fp], insertAttempts := [], updateAttempts := [] }
          | .ok summary =>
            if summary.length < 50 then
              { events := ev1 :: loopEvents ++ [ev4,
                  .error "AI generated an empty or very short summary"
                    "AI generated an empty or very short summary"],
                genCalls := loopCalls ++ [fp], insertAttempts := [], updateAttempts := [] }
            else
              let ev5 := YTEvent.progress total total "saving" "Saving summary to history..."
              match storeLookup env.db env.videoId env.language with
              | some existing =>
                match storeUpdate env.db existing summary "video" source with
                | .ok data =>
                  { events := ev1 :: loopEvents ++ [ev4, ev5,
                      .complete data.content (orYoutube data.source) "completed" none],
                    genCalls := loopCalls ++ [fp], insertAttempts := [],
                    updateAttempts := [updatedRow existing summary source] }
                | .error _ =>
                  { events := ev1 :: loopEvents ++ [ev4, ev5,
                      .complete summary (orYoutube source) "completed"
                        (some "Failed to save to history")],
                    genCalls := loopCalls ++ [fp], insertAttempts := [],
                    updateAttempts := [updatedRow existing summary source] }
              | none =>
                let row := ytRow env title summary source
                match storeInsert env.db row with
                | .ok data =>
                  { events := ev1 :: loopEvents ++ [ev4, ev5,
                      .complete data.content (orYoutube data.source) "completed" none],
                    genCalls := loopCalls ++ [fp], insertAttempts := [row],
                    updateAttempts := [] }
                | .error _ =>
                  { events := ev1 :: loopEvents ++ [ev4, ev5,
                      .complete summary (orYoutube source) "completed"
                        (some "Failed to save to history")],
                    genCalls := loopCalls ++ [fp], insertAttempts := [row],
                    updateAttempts := [] }

/- ## Direct upload route: chunk combination, from `createVideoSummaryPrompt` and the combined prompt in the upload route handler -/

/-- Embedding of `createVideoSummaryPrompt(transcript, fileName)`. -/
def createVideoSummaryPrompt (transcript fileName : String) : String :=
  "\nYou are an expert AI assistant that creates concise, informative summaries of video content based on transcripts.\n\n**Video File:** "
  ++ fileName
  ++ "\n\n**Instructions:**\n- Create a comprehensive but concise summary of the video content\n- Identify key topics, main points, and important information\n- Structure the summary with clear sections if applicable\n- Highlight any actionable insights or conclusions\n- Use markdown formatting for better readability\n- Focus on the most valuable information from the transcript\n\n**Transcript:**\n"
  ++ transcript
  ++ "\n\nPlease provide a well-structured summary that captures the essence and key information from this video.\n"

/-- The labeled section listing
`chunkSummaries.map((summary, index) => \`**Section ${index + 1}:**\n${summary}\`)`. -/
def sectionLabels (summaries : List String) : List String :=
  summaries.enum.map (fun p => "**Section " ++ toString (p.1 + 1) ++ ":**\n" ++ p.2)

/-- Embedding of the combined prompt built by the upload route: one prompt
listing every section summary labeled by its 1-based index, joined in
original order. -/
def combinedPrompt (fileName : String) (chunkSummaries : List String) : String :=
  "\nPlease create a comprehensive summary by combining these individual section summaries from a video file named \""
  ++ fileName ++ "\":\n\n"
  ++ String.intercalate "\n\n" (sectionLabels chunkSummaries)
  ++ "\n\nCreate a cohesive, well-structured summary that captures all the key information.\n"

/-- The sequence of generation prompts issued by the upload route for a given
chunk list, with the generator injected as `g`: one prompt per chunk when
there are several chunks, then exactly one combining call on the labeled
listing of the chunk summaries; a single chunk is summarized directly. -/
def uploadRouteGenCalls (fileName transcript : String) (chunks : List String)
    (g : String → String) : List String :=
  if chunks.length = 1 then [createVideoSummaryPrompt transcript fileName]
  else
    let chunkPrompts := chunks.enum.map
      (fun p => createVideoSummaryPrompt p.2 (fileName ++ " (Part " ++ toString (p.1 + 1) ++ ")"))
    chunkPrompts ++ [combinedPrompt fileName (chunkPrompts.map g)]

theorem storeLookup_failure (db : ResultStore) (v l e : String) (h : db.failure = some e) :
    storeLookup db v l = none := by
  rw [storeLookup, h]

theorem storeInsert_failure (db : ResultStore) (row : SummaryRow) (e : String)
    (h : db.failure = some e) : storeInsert db row = .error e := by
  rw [storeInsert, h]

theorem ytChunkLoop_ok (env : YTEnv) (total : Nat)
    (hall : ∀ p, ∃ s, ytGenerate env p = .ok s) :
    ∀ (chunks : List String) (i : Nat),
      ∃ evs ims, ytChunkLoop env total chunks i
          = (evs, chunks.map (fun c => ytChunkPrompt c env.language), .ok ims)
        ∧ ims.length = chunks.length
        ∧ ∀ ev ∈ evs, YTEvent.isError ev = false := by
  intro chunks
  induction chunks with
  | nil =>
    intro i
    exact ⟨[], [], rfl, rfl, by simp⟩
  | cons c cs ih =>
    intro i
    obtain ⟨s, hs⟩ := hall (ytChunkPrompt c env.language)
    obtain ⟨evs, ims, heq, hlen, herr⟩ := ih (i + 1)
    refine ⟨YTEvent.progress (i + 1) total "processing"
        ("Processing section " ++ toString (i + 1) ++ " of " ++ toString total ++ "...") :: evs,
      s :: ims, ?_, by simp [hlen], ?_⟩
    · rw [ytChunkLoop, hs, heq]
      simp [Except.map]
    · intro ev hev
      rcases List.mem_cons.mp hev with h1 | h2
      · subst h1; rfl
      · exact herr ev h2

/-- C9 counterexample: the transcript route does not label section summaries.
Its combining step joins the intermediate summaries with blank lines into the final
prompt, and this joined input collapses distinct section lists — the two
summary lists `["A", "B"]` and `["A\n\nB"]` join to the same string, so the
final prompt (a function of the joined string alone) is identical for both
and cannot list each section summary labeled by its 1-based index.  The
labeled listing built by the upload route distinguishes the two lists. -/
theorem combineSections_unlabeled_cex :
    String.intercalate "\n\n" ["A", "B"] = String.intercalate "\n\n" ["A\n\nB"]
    ∧ combinedPrompt "video.mp4" ["A", "B"] ≠ combinedPrompt "video.mp4" ["A\n\nB"]
    ∧ sectionLabels ["A", "B"] = ["**Section 1:**\nA", "**Section 2:**\nB"] := by
  refine ⟨by decide, by decide, by decide⟩

/-- C9 (amended): the combining step of the upload route builds one prompt listing
each section summary labeled by its 1-based index in the original chunk order
and issues exactly one combining generation call after the per-chunk calls;
the combining step of the transcript route also issues exactly one final
generation call, but on the blank-line concatenation of the section summaries
in original order, without per-section index labels. -/
theorem combineSections_behavior :
    (∀ (ss : List String) (i : Nat),
        (sectionLabels ss).length = ss.length
        ∧ (sectionLabels ss)[i]?
            = ss[i]?.map (fun s => "**Section " ++ toString (i + 1) ++ ":**\n" ++ s))
    ∧ (∀ (fileName transcript : String) (chunks : List String) (g : String → String),
        chunks.length ≠ 1 →
        ∃ prompts,
          uploadRouteGenCalls fileName transcript chunks g
            = prompts ++ [combinedPrompt fileName (prompts.map g)]
          ∧ prompts.length = chunks.length)
    ∧ (∀ (env : YTEnv) (t src title : String),
        storeLookup env.db env.videoId env.language = none →
        env.transcriptResult = .ok (t, src, title) →
        ¬ t.length < 8000 →
        (∀ p, ∃ s, ytGenerate env p = .ok s) →
        ∃ ims, ims.length = (splitTranscriptIntoChunks t 7000 1000).length
          ∧ (ytRun env).genCalls
              = (splitTranscriptIntoChunks t 7000 1000).map
                  (fun c => ytChunkPrompt c env.language)
                ++ [env.mkSummaryPrompt (String.intercalate "\n\n" ims) env.language]) := by
  refine ⟨?_, ?_, ?_⟩
  · intro ss i
    constructor
    · simp [sectionLabels]
    · simp only [sectionLabels, List.getElem?_map, List.getElem?_enum]
      cases ss[i]? <;> simp
  · intro fileName transcript chunks g h
    rw [uploadRouteGenCalls, if_neg h]
    exact ⟨_, rfl, by simp⟩
  · intro env t src title hdb htr hlong hall
    obtain ⟨evs, ims, hloop, hlen, _⟩ :=
      ytChunkLoop_ok env (splitTranscriptIntoChunks t 7000 1000).length hall
        (splitTranscriptIntoChunks t 7000 1000) 0
    refine ⟨ims, hlen.symm ▸ rfl, ?_⟩
    rw [ytRun, hdb, htr]
    simp only [if_neg hlong, hloop]
    obtain ⟨s2, hs2⟩ := hall (env.mkSummaryPrompt (String.intercalate "\n\n" ims) env.language)
    rw [hs2]
    by_cases hshort : s2.length < 50
    · simp [hshort]
    · simp only [hshort, hdb, if_false, if_neg]
      cases hins : storeInsert env.db (ytRow env title s2 src) <;> simp [hins, hshort, hdb]

/-- A concrete long transcript (8000 characters) for instantiating the
chunked path. -/
def c9Transcript : String := String.mk (List.replicate 8000 'a')

/-- A concrete generated summary (60 characters, which the cleaner leaves
unchanged). -/
def c9Gen : String := String.mk (List.replicate 60 'a')

/-- A concrete transcript-route environment reaching the chunked path with
every generation call succeeding. -/
def c9Env : YTEnv :=
  { videoId := "v9", language := "en", db := { rows := [], failure := none },
    transcriptResult := .ok (c9Transcript, "youtube", "Title"),
    rawGen := fun _ => .ok c9Gen, mkSummaryPrompt := fun t _ => t }

/-- Witness for the amended C9 at concrete inputs. -/
theorem combineSections_behavior_witness :
    (∃ prompts, uploadRouteGenCalls "f.mp4" "t" ["A", "B"] id
        = prompts ++ [combinedPrompt "f.mp4" (prompts.map id)]
      ∧ prompts.length = (["A", "B"] : List String).length)
    ∧ (∃ ims, ims.length = (splitTranscriptIntoChunks c9Transcript 7000 1000).length
        ∧ (ytRun c9Env).genCalls
            = (splitTranscriptIntoChunks c9Transcript 7000 1000).map
                (fun c => ytChunkPrompt c c9Env.language)
              ++ [c9Env.mkSummaryPrompt (String.intercalate "\n\n" ims) c9Env.language]) := by
  refine ⟨combineSections_behavior.2.1 "f.mp4" "t" ["A", "B"] id (by decide), ?_⟩
  refine combineSections_behavior.2.2 c9Env c9Transcript "youtube" "Title" rfl rfl ?_ ?_
  · have h : c9Transcript.length = 8000 := by
      show (List.replicate 8000 'a').length = 8000
      rw [List.length_replicate]
    omega
  · intro p
    exact ⟨cleanModelOutput c9Gen, rfl⟩

theorem s3Run_eq_of_success (env : S3Env) (up : GoogleFileUploadResult)
    (r : VideoProcessingResult)
    (hk : env.s3Key ≠ "") (hf : env.fileName ≠ "") (hdl : env.downloadResult = .ok ())
    (hup : env.uploadResult = .ok up) (hw : waitForFileProcessing env.polls 300000 = .ok true)
    (hg : env.genResult = .ok r) :
    s3Run env =
      (match storeInsert env.db (s3Row env r) with
        | .error _ =>
          { badRequest := false,
            events := [.progress "Downloading video from S3..." 10,
              .progress "Uploading to Google Files API..." 30,
              .progress "Waiting for Google Files processing..." 50,
              .progress "Generating transcript and summary with Gemini..." 70,
              .progress "Cleaning up Google Files..." 85,
              .progress "Saving to database..." 90,
              .error "Failed to save summary to database" 0],
            genCalls := 1, deletes := [up.name], insertAttempts := [s3Row env r] }
        | .ok data =>
          { badRequest := false,
            events := [.progress "Downloading video from S3..." 10,
              .progress "Uploading to Google Files API..." 30,
              .progress "Waiting for Google Files processing..." 50,
              .progress "Generating transcript and summary with Gemini..." 70,
              .progress "Cleaning up Google Files..." 85,
              .progress "Saving to database..." 90,
              .complete "Video processing completed successfully!" 100
                r.summary r.transcript data.id env.fileName env.s3Key],
            genCalls := 1, deletes := [up.name], insertAttempts := [s3Row env r] }) := by
  rw [s3Run, if_neg (by simp [hk, hf]), hdl, hup, hw, hg]

/-- A concrete remote file handle. -/
def sampleHandle : GoogleFileUploadResult :=
  { fileUri := "https://generativelanguage.googleapis.com/v1beta/files/abc123",
    name := "files/abc123", mimeType := "video/mp4", sizeBytes := "1000", state := "PROCESSING" }

/-- An S3-route environment whose readiness wait times out after the upload
succeeded. -/
def c1Env : S3Env :=
  { s3Key := "videos/1_a.mp4", fileName := "a.mp4", downloadResult := .ok (),
    uploadResult := .ok sampleHandle, polls := fun _ => "PROCESSING",
    genResult := .ok { transcript := "t", summary := "s" }, deleteHttp := .ok true,
    db := { rows := [], failure := none } }

/-- A `processVideo` environment with a successful upload and a failing
delete request. -/
def c1aEnv : PVEnv :=
  { uploadResult := .ok sampleHandle, polls := fun _ => "PROCESSING",
    genResult := .ok { transcript := "t", summary := "s" },
    deleteHttp := .error "network error" }

/-- An S3-route environment on the full success path. -/
def c1bEnv : S3Env :=
  { s3Key := "videos/1_a.mp4", fileName := "a.mp4", downloadResult := .ok (),
    uploadResult := .ok sampleHandle, polls := fun _ => "ACTIVE",
    genResult := .ok { transcript := "t", summary := "s" }, deleteHttp := .ok true,
    db := { rows := [], failure := none } }

/-- C1 counterexample: in the S3 route, a run that obtains the remote file
handle and then times out waiting for remote processing never attempts the
deletion — the delete call list is empty although the upload succeeded —
refuting the claim that deletion is attempted exactly once for every outcome
alike. -/
theorem cleanupGuarantee_cex :
    c1Env.uploadResult = .ok sampleHandle
    ∧ (s3Run c1Env).deletes = []
    ∧ (s3Run c1Env).events.getLast?
        = some (.error "File processing timeout after 300 seconds" 0) := by
  refine ⟨rfl, rfl, rfl⟩

/-- C1 (amended): `GoogleFilesProcessor.processVideo` attempts the deletion
of the remote file by its durable name exactly once whenever the upload
handle was obtained — on success, processing failure and timeout alike — and
never when the upload failed; the outcome of the deletion never changes the
primary result.  The inline orchestration of the S3 route, by contrast, attempts
the deletion exactly once only when generation succeeded, and not at all when
the readiness wait or the generation fails. -/
theorem cleanupGuarantee :
    (∀ (env : PVEnv) (up : GoogleFileUploadResult), env.uploadResult = .ok up →
        (processVideo env).2.1 = [up.name])
    ∧ (∀ (env : PVEnv) (e : String), env.uploadResult = .error e →
        (processVideo env).2.1 = [])
    ∧ (∀ (env : PVEnv) (d : Except String Bool),
        (processVideo { env with deleteHttp := d }).1 = (processVideo env).1)
    ∧ (∀ (env : S3Env) (up : GoogleFileUploadResult),
        env.s3Key ≠ "" → env.fileName ≠ "" → env.downloadResult = .ok () →
        env.uploadResult = .ok up →
        (∀ e, waitForFileProcessing env.polls 300000 = .error e →
            (s3Run env).deletes = [])
        ∧ (∀ e, waitForFileProcessing env.polls 300000 = .ok true →
            env.genResult = .error e → (s3Run env).deletes = [])
        ∧ (∀ r, waitForFileProcessing env.polls 300000 = .ok true →
            env.genResult = .ok r → (s3Run env).deletes = [up.name])) := by
  refine ⟨?_, ?_, ?_, ?_⟩
  · intro env up hup
    rw [processVideo, hup]
  · intro env e hup
    rw [processVideo, hup]
  · intro env d
    cases hup : env.uploadResult <;> simp [processVideo, hup]
  · intro env up hk hf hdl hup
    refine ⟨?_, ?_, ?_⟩
    · intro e hw
      rw [s3Run, if_neg (by simp [hk, hf]), hdl, hup, hw]
    · intro e hw hg
      rw [s3Run, if_neg (by simp [hk, hf]), hdl, hup, hw, hg]
    · intro r hw hg
      rw [s3Run_eq_of_success env up r hk hf hdl hup hw hg]
      cases storeInsert env.db (s3Row env r) <;> rfl

/-- Witness for the amended C1 at concrete environments. -/
theorem cleanupGuarantee_witness :
    (processVideo c1aEnv).2.1 = [sampleHandle.name]
    ∧ (processVideo { c1aEnv with deleteHttp := .ok false }).1 = (processVideo c1aEnv).1
    ∧ (s3Run c1bEnv).deletes = [sampleHandle.name] := by
  refine ⟨cleanupGuarantee.1 c1aEnv sampleHandle rfl,
    cleanupGuarantee.2.2.1 c1aEnv (.ok false), ?_⟩
  exact (cleanupGuarantee.2.2.2 c1bEnv sampleHandle (by decide) (by decide) rfl rfl).2.2
    { transcript := "t", summary := "s" } rfl rfl

/-- A stored row for the key `("videos/dup.mp4", "en")`. -/
def c6Row : SummaryRow :=
  { id := "r1", videoId := "videos/dup.mp4", title := "old", content := "stored summary",
    language := "en", mode := "video", source := "youtube" }

/-- An S3-route environment whose key already has a row in the Result
Store. -/
def c6Env : S3Env :=
  { s3Key := "videos/dup.mp4", fileName := "dup.mp4", downloadResult := .ok (),
    uploadResult := .ok sampleHandle, polls := fun _ => "ACTIVE",
    genResult := .ok { transcript := "tr", summary := "su" }, deleteHttp := .ok true,
    db := { rows := [c6Row], failure := none } }

/-- A transcript-route environment whose key already has a row in the Result
Store. -/
def c6YtEnv : YTEnv :=
  { videoId := "videos/dup.mp4", language := "en",
    db := { rows := [c6Row], failure := none },
    transcriptResult := .error "not consulted", rawGen := fun _ => .error "not consulted",
    mkSummaryPrompt := fun t _ => t }

/-- C6 counterexample: in the S3 route, a request whose `(sourceId, language)`
key already has a stored row still runs the whole pipeline — the generator is
invoked once, no `complete` event is emitted (the duplicate insert is
rejected by the uniqueness constraint and the run ends in an error event) —
refuting the claim that such a request emits a single `complete` event with
the stored payload and invokes the generator zero times. -/
theorem cacheBehavior_cex :
    storeLookup c6Env.db c6Env.s3Key "en" = some c6Row
    ∧ (s3Run c6Env).genCalls = 1
    ∧ (s3Run c6Env).events.getLast? = some (.error "Failed to save summary to database" 0)
    ∧ (s3Run c6Env).events.all (fun ev => !ev.isComplete) = true := by
  refine ⟨rfl, rfl, rfl, rfl⟩

/-- C6 (amended): on the transcript route, a request whose
`(videoId, language)` key has a stored row emits exactly one event — the
`complete` event carrying the stored content — and performs zero generation
calls and zero store writes.  The S3 route performs no cache lookup: even
when the key already has a row, it invokes the generator (one call), attempts
an insert that the uniqueness constraint rejects, and ends in a terminal
error event with no `complete` event. -/
theorem cacheBehavior :
    (∀ (env : YTEnv) (row : SummaryRow),
        storeLookup env.db env.videoId env.language = some row →
        ytRun env = { events := [.complete row.content "cache" "completed" none],
                      genCalls := [], insertAttempts := [], updateAttempts := [] })
    ∧ (∀ (env : S3Env) (up : GoogleFileUploadResult) (r : VideoProcessingResult),
        env.s3Key ≠ "" → env.fileName ≠ "" →
        env.db.failure = none →
        env.db.rows.any (fun q => q.videoId == env.s3Key && q.language == "en") = true →
        env.downloadResult = .ok () → env.uploadResult = .ok up →
        waitForFileProcessing env.polls 300000 = .ok true → env.genResult = .ok r →
        (s3Run env).genCalls = 1
        ∧ (s3Run env).events.getLast? = some (.error "Failed to save summary to database" 0)
        ∧ ∀ ev ∈ (s3Run env).events, ev.isComplete = false) := by
  constructor
  · intro env row h
    rw [ytRun, h]
  · intro env up r hk hf hnone hany hdl hup hw hg
    have hins : storeInsert env.db (s3Row env r)
        = .error "duplicate key value violates unique constraint" := by
      rw [storeInsert, hnone]
      exact if_pos hany
    rw [s3Run_eq_of_success env up r hk hf hdl hup hw hg, hins]
    refine ⟨rfl, rfl, ?_⟩
    intro ev hev
    simp only [List.mem_cons, List.not_mem_nil, or_false] at hev
    rcases hev with rfl | rfl | rfl | rfl | rfl | rfl | rfl <;> rfl

/-- Witness for the amended C6 at concrete environments. -/
theorem cacheBehavior_witness :
    ytRun c6YtEnv = { events := [.complete "stored summary" "cache" "completed" none],
                      genCalls := [], insertAttempts := [], updateAttempts := [] }
    ∧ (s3Run c6Env).genCalls = 1
    ∧ (s3Run c6Env).events.getLast?
        = some (.error "Failed to save summary to database" 0) := by
  refine ⟨cacheBehavior.1 c6YtEnv c6Row rfl, ?_, ?_⟩
  · exact (cacheBehavior.2 c6Env sampleHandle { transcript := "tr", summary := "su" }
      (by decide) (by decide) rfl rfl rfl rfl rfl rfl).1
  · exact (cacheBehavior.2 c6Env sampleHandle { transcript := "tr", summary := "su" }
      (by decide) (by decide) rfl rfl rfl rfl rfl rfl).2.1

/-- An S3-route environment with a successful pipeline but a failing Result
Store. -/
def c7S3Env : S3Env :=
  { s3Key := "videos/ok.mp4", fileName := "ok.mp4", downloadResult := .ok (),
    uploadResult := .ok sampleHandle, polls := fun _ => "ACTIVE",
    genResult := .ok { transcript := "tr", summary := "a fine summary" },
    deleteHttp := .ok true, db := { rows := [], failure := some "connection reset" } }

theorem getLast?_cons_append_three {α : Type} (e1 : α) (l : List α) (e4 e5 x : α) :
    (e1 :: (l ++ [e4, e5, x])).getLast? = some x := by
  have h : e1 :: (l ++ [e4, e5, x]) = (e1 :: (l ++ [e4, e5])) ++ [x] := by simp
  rw [h, List.getLast?_concat]

/-- C7 counterexample: in the S3 route, a run in which generation succeeded
but the Result Store insert fails ends in a terminal error event and emits no
`complete` event at all — refuting the claim that every such run reports
completion with a warning flag instead of an error. -/
theorem persistFailure_degrades_cex :
    c7S3Env.genResult = .ok { transcript := "tr", summary := "a fine summary" }
    ∧ c7S3Env.db.failure = some "connection reset"
    ∧ (s3Run c7S3Env).events.getLast? = some (.error "Failed to save summary to database" 0)
    ∧ (s3Run c7S3Env).events.all (fun ev => !ev.isComplete) = true := by
  refine ⟨rfl, rfl, rfl, rfl⟩

/-- C7 (amended): on the transcript route, a run whose generation succeeded
(with summaries of acceptable length) but whose Result Store write fails does
not fail — its last event is a `complete` event carrying the generated
summary and the warning flag, and no error event is emitted.  In the S3
route, by contrast, a persistence failure after successful generation fails
the run with a terminal error event and no completion. -/
theorem persistFailure_degrades :
    (∀ (env : YTEnv) (e t src title : String),
        env.db.failure = some e →
        env.transcriptResult = .ok (t, src, title) →
        (∀ p, ∃ s, ytGenerate env p = .ok s) →
        (∀ p s, ytGenerate env p = .ok s → 50 ≤ s.length) →
        ∃ s2, (ytRun env).events.getLast?
            = some (.complete s2 (orYoutube src) "completed" (some "Failed to save to history"))
          ∧ ∀ ev ∈ (ytRun env).events, ev.isError = false)
    ∧ (∀ (env : S3Env) (e : String) (up : GoogleFileUploadResult)
        (r : VideoProcessingResult),
        env.s3Key ≠ "" → env.fileName ≠ "" → env.db.failure = some e →
        env.downloadResult = .ok () → env.uploadResult = .ok up →
        waitForFileProcessing env.polls 300000 = .ok true → env.genResult = .ok r →
        (s3Run env).events.getLast? = some (.error "Failed to save summary to database" 0)
          ∧ ∀ ev ∈ (s3Run env).events, ev.isComplete = false) := by
  constructor
  · intro env e t src title hfail htr hall hlen
    have hdb : storeLookup env.db env.videoId env.language = none :=
      storeLookup_failure env.db _ _ e hfail
    by_cases hshort : t.length < 8000
    · obtain ⟨s, hs⟩ := hall (env.mkSummaryPrompt t env.language)
      have h50 : ¬ s.length < 50 := by
        have := hlen _ s hs
        omega
      have hins := storeInsert_failure env.db (ytRow env title s src) e hfail
      have hrun : ytRun env =
          { events := [YTEvent.progress 0 1 "analyzing" "Fetching video transcript...",
              YTEvent.progress 1 1 "processing" "Processing video content...",
              YTEvent.progress 1 1 "saving" "Saving summary to history...",
              .complete s (orYoutube src) "completed" (some "Failed to save to history")],
            genCalls := [env.mkSummaryPrompt t env.language],
            insertAttempts := [ytRow env title s src], updateAttempts := [] } := by
        rw [ytRun, hdb, htr]
        simp [hshort, hs, h50, hins]
      refine ⟨s, ?_, ?_⟩
      · rw [hrun]
        rfl
      · intro ev hev
        rw [hrun] at hev
        simp only [List.mem_cons, List.not_mem_nil, or_false] at hev
        rcases hev with rfl | rfl | rfl | rfl <;> rfl
    · obtain ⟨evs, ims, hloop, hlenims, herr⟩ :=
        ytChunkLoop_ok env (splitTranscriptIntoChunks t 7000 1000).length hall
          (splitTranscriptIntoChunks t 7000 1000) 0
      obtain ⟨s2, hs2⟩ := hall (env.mkSummaryPrompt (String.intercalate "\n\n" ims) env.language)
      have h50 : ¬ s2.length < 50 := by
        have := hlen _ s2 hs2
        omega
      have hins := storeInsert_failure env.db (ytRow env title s2 src) e hfail
      have hrun : ytRun env =
          { events := YTEvent.progress 0 1 "analyzing" "Fetching video transcript..." ::
              (evs ++ [YTEvent.progress (splitTranscriptIntoChunks t 7000 1000).length
                  (splitTranscriptIntoChunks t 7000 1000).length "finalizing"
                  "Creating final summary...",
                YTEvent.progress (splitTranscriptIntoChunks t 7000 1000).length
                  (splitTranscriptIntoChunks t 7000 1000).length "saving"
                  "Saving summary to history...",
                .complete s2 (orYoutube src) "completed" (some "Failed to save to history")]),
            genCalls := (splitTranscriptIntoChunks t 7000 1000).map
                (fun c => ytChunkPrompt c env.language)
              ++ [env.mkSummaryPrompt (String.intercalate "\n\n" ims) env.language],
            insertAttempts := [ytRow env title s2 src], updateAttempts := [] } := by
        rw [ytRun, hdb, htr]
        simp [hshort, hloop, hs2, h50, hdb, hins]
      refine ⟨s2, ?_, ?_⟩
      · rw [hrun]
        exact getLast?_cons_append_three _ _ _ _ _
      · intro ev hev
        rw [hrun] at hev
        simp only [List.mem_cons, List.mem_append, List.not_mem_nil, or_false] at hev
        rcases hev with rfl | hev | rfl | rfl | rfl
        · rfl
        · exact herr ev hev
        · rfl
        · rfl
        · rfl
  · intro env e up r hk hf hfail hdl hup hw hg
    have hins := storeInsert_failure env.db (s3Row env r) e hfail
    rw [s3Run_eq_of_success env up r hk hf hdl hup hw hg, hins]
    refine ⟨rfl, ?_⟩
    intro ev hev
    simp only [List.mem_cons, List.not_mem_nil, or_false] at hev
    rcases hev with rfl | rfl | rfl | rfl | rfl | rfl | rfl <;> rfl

/-- A transcript-route environment with a failing Result Store and successful
generation. -/
def c7YtEnv : YTEnv :=
  { videoId := "v7", language := "en",
    db := { rows := [], failure := some "connection reset" },
    transcriptResult := .ok ("a short transcript", "youtube", "Title"),
    rawGen := fun _ => .ok c9Gen, mkSummaryPrompt := fun t _ => t }

/-- Witness for the amended C7 at concrete environments. -/
theorem persistFailure_degrades_witness :
    (∃ s2, (ytRun c7YtEnv).events.getLast?
        = some (.complete s2 (orYoutube "youtube") "completed" (some "Failed to save to history"))
      ∧ ∀ ev ∈ (ytRun c7YtEnv).events, ev.isError = false)
    ∧ (s3Run c7S3Env).events.getLast?
        = some (.error "Failed to save summary to database" 0) := by
  constructor
  · refine persistFailure_degrades.1 c7YtEnv "connection reset" "a short transcript"
      "youtube" "Title" rfl rfl ?_ ?_
    · intro p
      exact ⟨cleanModelOutput c9Gen, rfl⟩
    · intro p s hs
      have heq : cleanModelOutput c9Gen = s := by
        simpa [ytGenerate, c7YtEnv, Except.map] using hs
      rw [← heq]
      decide
  · exact (persistFailure_degrades.2 c7S3Env "connection reset" sampleHandle
      { transcript := "tr", summary := "a fine summary" }
      (by decide) (by decide) rfl rfl rfl rfl rfl).1
